import Mathlib

/-!  Verification of the Move formatter command wrapper
(crates/aptos/src/move_tool/fmt.rs).

The Rust code builds an argument vector for the external movefmt tool from a
parsed FmtCommand, spawns the tool as a child process, and interprets its
exit status, stdout and stderr.  We embed the command structure, the argument
construction, a faithful UTF-8 decoder standing for Rust String::from_utf8,
and the result interpretation of FmtCommand::execute.  The executable
resolver and the process spawner are external collaborators, abstracted as an
environment; the list of child invocations actually performed is returned
explicitly so that non-spawning paths are observable.
-/

namespace MoveFmt

/-- Model of the EmitMode enum (fmt.rs lines 19-25). -/
inductive EmitMode
  | Overwrite
  | NewFile
  | StdOut
  | Diff
deriving DecidableEq, Repr

/-- Model of the FmtCommand argument structure (fmt.rs lines 27-66).  Paths
are modelled by their display strings.  The field config models the Rust
BTreeMap of String to String by its list of entries in ascending key order
(a BTreeMap iterates in ascending key order). -/
structure FmtCommand where
  emit_mode : EmitMode
  file_path : Option String
  dir_path : Option String
  config_path : Option String
  config : List (String × String)
  verbose : Bool
  quiet : Bool
deriving DecidableEq, Repr

/-- Modelled from the spec: the CLI-level mutual-exclusion check declared on
FmtCommand by the clap ArgGroup named input (fmt.rs lines 28-32), whose
enforcement lives in the external clap library.  Per the spec, at most one of
file_path and dir_path may be set by the caller; a request setting both is
rejected before construction. -/
def inputGroupAccepts (c : FmtCommand) : Bool :=
  !(c.file_path.isSome && c.dir_path.isSome)

/-- Whether a byte is a UTF-8 continuation byte (0x80 to 0xBF). -/
def isCont (b : Nat) : Bool := 0x80 ≤ b && b ≤ 0xBF

/-- Admissible range of the second byte of a multi-byte UTF-8 sequence,
which depends on the first byte (it excludes overlong encodings, surrogate
code points and values above 0x10FFFF). -/
def utf8Byte2Ok (b b2 : Nat) : Bool :=
  if b = 0xE0 then 0xA0 ≤ b2 && b2 ≤ 0xBF
  else if b = 0xED then 0x80 ≤ b2 && b2 ≤ 0x9F
  else if b = 0xF0 then 0x90 ≤ b2 && b2 ≤ 0xBF
  else if b = 0xF4 then 0x80 ≤ b2 && b2 ≤ 0x8F
  else isCont b2

/-- UTF-8 decoding of a byte list starting at byte index i.  On failure it
returns the index of the start of the first invalid sequence (the valid_up_to
of the Rust Utf8Error). -/
def utf8DecodeAux : Nat → List Nat → Except Nat (List Char)
  | _, [] => .ok []
  | i, b :: rest =>
    if b ≤ 0x7F then
      match utf8DecodeAux (i + 1) rest with
      | .ok cs => .ok (Char.ofNat b :: cs)
      | .error e => .error e
    else if 0xC2 ≤ b && b ≤ 0xDF then
      match rest with
      | b2 :: rest2 =>
        if isCont b2 then
          match utf8DecodeAux (i + 2) rest2 with
          | .ok cs => .ok (Char.ofNat ((b - 0xC0) * 0x40 + (b2 - 0x80)) :: cs)
          | .error e => .error e
        else .error i
      | [] => .error i
    else if 0xE0 ≤ b && b ≤ 0xEF then
      match rest with
      | b2 :: b3 :: rest3 =>
        if utf8Byte2Ok b b2 && isCont b3 then
          match utf8DecodeAux (i + 3) rest3 with
          | .ok cs =>
            .ok (Char.ofNat ((b - 0xE0) * 0x1000 + (b2 - 0x80) * 0x40 + (b3 - 0x80)) :: cs)
          | .error e => .error e
        else .error i
      | _ => .error i
    else if 0xF0 ≤ b && b ≤ 0xF4 then
      match rest with
      | b2 :: b3 :: b4 :: rest4 =>
        if utf8Byte2Ok b b2 && isCont b3 && isCont b4 then
          match utf8DecodeAux (i + 4) rest4 with
          | .ok cs =>
            .ok (Char.ofNat
              ((b - 0xF0) * 0x40000 + (b2 - 0x80) * 0x1000 + (b3 - 0x80) * 0x40 + (b4 - 0x80)) :: cs)
          | .error e => .error e
        else .error i
      | _ => .error i
    else .error i

/-- Model of Rust String::from_utf8 applied to captured process output:
either the decoded string, or the byte index at which decoding failed. -/
def utf8Decode (bs : List Nat) : Except Nat String :=
  match utf8DecodeAux 0 bs with
  | .ok cs => .ok (String.mk cs)
  | .error e => .error e

/-- Modelled from the spec: the human-readable rendering of the Rust
Utf8Error (its Display implementation lives in the Rust standard library,
outside the sources); the claims only require that the decode error message
is embedded, so we render the failure index. -/
def utf8ErrMsg (i : Nat) : String :=
  "invalid utf-8 sequence from index " ++ toString i

/-- Encoding of EmitMode used for the emit argument
(fmt.rs lines 89-94). -/
def emitModeStr : EmitMode → String
  | .Overwrite => "overwrite"
  | .NewFile => "new_file"
  | .StdOut => "stdout"
  | .Diff => "diff"

/-- Comma-joined key=value rendering of the config map
(fmt.rs lines 105-109). -/
def configJoined (m : List (String × String)) : String :=
  String.intercalate "," (m.map fun kv => kv.1 ++ "=" ++ kv.2)

/-- First argument pushed by execute (fmt.rs line 95). -/
def emitSeg (c : FmtCommand) : List String :=
  ["--emit=" ++ emitModeStr c.emit_mode]

/-- Optional config-path argument (fmt.rs lines 96-98). -/
def configPathSeg (c : FmtCommand) : List String :=
  match c.config_path with
  | some p => ["--config-path=" ++ p]
  | none => []

/-- Optional verbosity argument (fmt.rs lines 99-103): -v if verbose, else
-q if quiet, else nothing. -/
def verbositySeg (c : FmtCommand) : List String :=
  if c.verbose then ["-v"] else if c.quiet then ["-q"] else []

/-- Optional config overrides argument (fmt.rs lines 104-110), emitted only
when the map is non-empty. -/
def configSeg (c : FmtCommand) : List String :=
  if c.config.isEmpty then [] else ["--config=" ++ configJoined c.config]

/-- Target argument (fmt.rs lines 111-120): the file path when set,
otherwise the directory path, defaulting to the current directory. -/
def targetArg (c : FmtCommand) : String :=
  match c.file_path with
  | some f => "--file-path=" ++ f
  | none => "--dir-path=" ++ c.dir_path.getD "./"

/-- The argument vector handed to the movefmt child process, in the order
the source pushes arguments (fmt.rs lines 95-120). -/
def buildArguments (c : FmtCommand) : List String :=
  emitSeg c ++ configPathSeg c ++ verbositySeg c ++ configSeg c ++ [targetArg c]

/-- Modelled from the spec: the error taxonomy of the result contract.  In
the source these are CliError values (defined outside the sources, in
common/types.rs) constructed at the corresponding points of
FmtCommand::execute. -/
inductive FmtError
  | toolNotFound (msg : String)
  | processSpawnError (path : String) (osError : String)
  | toolExecutionError (status : Nat) (stderrText : String)
  | outputDecodeError (msg : String)
deriving DecidableEq, Repr

/-- Captured result of a terminated child process: exit status (0 means
success) and the raw stdout and stderr byte streams. -/
structure ProcessOutput where
  status : Nat
  stdout : List Nat
  stderr : List Nat
deriving DecidableEq, Repr

/-- Outcome of attempting to spawn the child process: either it ran to
completion with captured output, or the OS refused to create it. -/
inductive SpawnOutcome
  | spawned (out : ProcessOutput)
  | ioError (msg : String)
deriving DecidableEq, Repr

/-- External collaborators of execute: the movefmt path resolver
(get_movefmt_path, which may fail with a CliError propagated unchanged) and
the operating system running a command with an argument vector. -/
structure Env where
  movefmt : Except FmtError String
  run : String → List String → SpawnOutcome

/-- Observable result of one execute call: the returned value or error, the
text written to the diagnostic stream (eprint), and the child invocations
performed. -/
structure ExecResult where
  result : Except FmtError String
  diag : String
  spawned : List (String × List String)
deriving Repr

/-- Model of FmtCommand::execute (fmt.rs lines 80-142): resolve the tool,
build the argument vector, run the child, then interpret exit status and
captured output. -/
def execute (env : Env) (c : FmtCommand) : ExecResult :=
  match env.movefmt with
  | .error e => ⟨.error e, "", []⟩
  | .ok exe =>
    let args := buildArguments c
    match env.run exe args with
    | .ioError e => ⟨.error (.processSpawnError exe e), "", [(exe, args)]⟩
    | .spawned out =>
      if out.status = 0 then
        match utf8Decode out.stdout with
        | .ok s => ⟨.ok "ok", s, [(exe, args)]⟩
        | .error i =>
          ⟨.error (.outputDecodeError
            ("output generated by formatter is not valid utf8: " ++ utf8ErrMsg i)),
           "", [(exe, args)]⟩
      else
        ⟨.error (.toolExecutionError out.status ((utf8Decode out.stderr).toOption.getD "")),
         "", [(exe, args)]⟩

/-- Boolean test that one character list is an initial segment of
another. -/
def chPfx : List Char → List Char → Bool
  | [], _ => true
  | _ :: _, [] => false
  | a :: as, b :: bs => a == b && chPfx as bs

/-- Boolean test that the string p is an initial segment of the string s;
used to recognise which option an argument of the child invocation is. -/
def strHasPfx (p s : String) : Bool := chPfx p.data s.data

/-- Lexicographic strict order on character lists, the order in which a Rust
BTreeMap with string keys stores and iterates its entries. -/
def charsLtb : List Char → List Char → Bool
  | [], [] => false
  | [], _ :: _ => true
  | _ :: _, [] => false
  | a :: as, b :: bs => if a < b then true else if a == b then charsLtb as bs else false

/-- Lexicographic strict order on strings. -/
def strLtb (s t : String) : Bool := charsLtb s.data t.data

/-- The representation invariant of the config field: entries are in
strictly ascending key order, as a BTreeMap stores them. -/
def sortedKeys (m : List (String × String)) : Prop :=
  List.Pairwise (fun p q => strLtb p.1 q.1 = true) m

theorem chPfx_append_self (p s : List Char) : chPfx p (p ++ s) = true := by
  induction p with
  | nil => rfl
  | cons a as ih => simp [chPfx, ih]

theorem chPfx_mutual_append {p q : List Char} (hp : chPfx p q = false)
    (hq : chPfx q p = false) (s : List Char) : chPfx p (q ++ s) = false := by
  induction p generalizing q with
  | nil => simp [chPfx] at hp
  | cons a as ih =>
    cases q with
    | nil => simp [chPfx] at hq
    | cons b bs =>
      by_cases hab : a = b
      · subst hab
        simp only [chPfx, beq_self_eq_true, Bool.true_and] at hp hq
        simpa [chPfx] using ih hp hq
      · simp [chPfx, hab]

theorem strHasPfx_append_self (p s : String) : strHasPfx p (p ++ s) = true := by
  unfold strHasPfx
  rw [String.data_append]
  exact chPfx_append_self p.data s.data

theorem strHasPfx_append (p q : String) (hp : strHasPfx p q = false)
    (hq : strHasPfx q p = false) (s : String) : strHasPfx p (q ++ s) = false := by
  unfold strHasPfx
  rw [String.data_append]
  exact chPfx_mutual_append hp hq s.data

theorem append_ne_of_not_pfx (p t : String) (h : strHasPfx p t = false)
    (s : String) : p ++ s ≠ t := by
  intro he
  rw [← he, strHasPfx_append_self] at h
  exact Bool.noConfusion h

theorem charsLtb_asymm : ∀ {a b : List Char},
    charsLtb a b = true → charsLtb b a = true → False := by
  intro a
  induction a with
  | nil => intro b h1 h2; cases b <;> simp [charsLtb] at h1 h2
  | cons x xs ih =>
    intro b h1 h2
    cases b with
    | nil => simp [charsLtb] at h1
    | cons y ys =>
      by_cases hxy : x = y
      · subst hxy
        simp only [charsLtb, lt_irrefl, if_false, beq_self_eq_true] at h1 h2
        simp only [if_true] at h1 h2
        exact ih h1 h2
      · rcases lt_trichotomy x y with hlt | heq | hgt
        · simp [charsLtb, lt_asymm hlt, Ne.symm hxy] at h2
        · exact hxy heq
        · simp [charsLtb, lt_asymm hgt, hxy] at h1

theorem strLtb_asymm {s t : String} (h1 : strLtb s t = true)
    (h2 : strLtb t s = true) : False :=
  charsLtb_asymm h1 h2

theorem countP_buildArguments (c : FmtCommand) (P : String → Bool) :
    List.countP P (buildArguments c) =
      List.countP P (emitSeg c) + List.countP P (configPathSeg c)
        + List.countP P (verbositySeg c) + List.countP P (configSeg c)
        + List.countP P [targetArg c] := by
  simp only [buildArguments, List.countP_append]

/-- C2: the argument vector has the fixed shape: one emit argument first
(with the lowercase-underscore encoding of the mode), then the optional
config-path argument, then the optional verbosity flag, then the optional
config overrides argument, then exactly one target argument last; the spec
scenario with Diff mode, a file path and one override produces exactly the
three expected arguments. -/
theorem fmt_C2 (c : FmtCommand) :
    (buildArguments c).head? = some ("--emit=" ++ emitModeStr c.emit_mode)
    ∧ List.countP (fun a => strHasPfx "--emit=" a) (buildArguments c) = 1
    ∧ (buildArguments c).getLast? = some (targetArg c)
    ∧ List.countP (fun a => strHasPfx "--file-path=" a || strHasPfx "--dir-path=" a)
        (buildArguments c) = 1
    ∧ buildArguments c
        = ["--emit=" ++ emitModeStr c.emit_mode] ++ configPathSeg c ++ verbositySeg c
            ++ configSeg c ++ [targetArg c]
    ∧ emitModeStr EmitMode.Overwrite = "overwrite"
    ∧ emitModeStr EmitMode.NewFile = "new_file"
    ∧ emitModeStr EmitMode.StdOut = "stdout"
    ∧ emitModeStr EmitMode.Diff = "diff"
    ∧ buildArguments
        ⟨EmitMode.Diff, some "a.move", none, none, [("max_width", "100")], false, false⟩
        = ["--emit=diff", "--config=max_width=100", "--file-path=a.move"] := by
  refine ⟨rfl, ?_, ?_, ?_, rfl, rfl, rfl, rfl, rfl, rfl⟩
  · rw [countP_buildArguments]
    have h1 : List.countP (fun a => strHasPfx "--emit=" a) (emitSeg c) = 1 := by
      simp [emitSeg, strHasPfx_append_self]
    have h2 : List.countP (fun a => strHasPfx "--emit=" a) (configPathSeg c) = 0 := by
      cases hc : c.config_path with
      | none => simp [configPathSeg, hc]
      | some p =>
        simp [configPathSeg, hc, strHasPfx_append "--emit=" "--config-path=" rfl rfl p]
    have h3 : List.countP (fun a => strHasPfx "--emit=" a) (verbositySeg c) = 0 := by
      cases hv : c.verbose <;> cases hq : c.quiet <;>
        simp [verbositySeg, hv, hq, show strHasPfx "--emit=" "-v" = false from rfl,
          show strHasPfx "--emit=" "-q" = false from rfl]
    have h4 : List.countP (fun a => strHasPfx "--emit=" a) (configSeg c) = 0 := by
      by_cases hcm : c.config.isEmpty <;>
        simp [configSeg, hcm, strHasPfx_append "--emit=" "--config=" rfl rfl _]
    have h5 : List.countP (fun a => strHasPfx "--emit=" a) [targetArg c] = 0 := by
      cases hf : c.file_path <;>
        simp [targetArg, hf, strHasPfx_append "--emit=" "--file-path=" rfl rfl _,
          strHasPfx_append "--emit=" "--dir-path=" rfl rfl _]
    omega
  · have hsplit : buildArguments c
        = (emitSeg c ++ configPathSeg c ++ verbositySeg c ++ configSeg c) ++ [targetArg c] := by
      simp [buildArguments, List.append_assoc]
    rw [hsplit, List.getLast?_concat]
  · rw [countP_buildArguments]
    have h1 : List.countP
        (fun a => strHasPfx "--file-path=" a || strHasPfx "--dir-path=" a) (emitSeg c) = 0 := by
      simp [emitSeg, strHasPfx_append "--file-path=" "--emit=" rfl rfl _,
        strHasPfx_append "--dir-path=" "--emit=" rfl rfl _]
    have h2 : List.countP
        (fun a => strHasPfx "--file-path=" a || strHasPfx "--dir-path=" a)
        (configPathSeg c) = 0 := by
      cases hc : c.config_path with
      | none => simp [configPathSeg, hc]
      | some p =>
        simp [configPathSeg, hc, strHasPfx_append "--file-path=" "--config-path=" rfl rfl p,
          strHasPfx_append "--dir-path=" "--config-path=" rfl rfl p]
    have h3 : List.countP
        (fun a => strHasPfx "--file-path=" a || strHasPfx "--dir-path=" a)
        (verbositySeg c) = 0 := by
      cases hv : c.verbose <;> cases hq : c.quiet <;>
        simp [verbositySeg, hv, hq, show strHasPfx "--file-path=" "-v" = false from rfl,
          show strHasPfx "--file-path=" "-q" = false from rfl,
          show strHasPfx "--dir-path=" "-v" = false from rfl,
          show strHasPfx "--dir-path=" "-q" = false from rfl]
    have h4 : List.countP
        (fun a => strHasPfx "--file-path=" a || strHasPfx "--dir-path=" a)
        (configSeg c) = 0 := by
      by_cases hcm : c.config.isEmpty <;>
        simp [configSeg, hcm, strHasPfx_append "--file-path=" "--config=" rfl rfl _,
          strHasPfx_append "--dir-path=" "--config=" rfl rfl _]
    have h5 : List.countP
        (fun a => strHasPfx "--file-path=" a || strHasPfx "--dir-path=" a)
        [targetArg c] = 1 := by
      cases hf : c.file_path with
      | some f => simp [targetArg, hf, strHasPfx_append_self]
      | none =>
        simp [targetArg, hf, strHasPfx_append_self,
          strHasPfx_append "--file-path=" "--dir-path=" rfl rfl _]
    omega

theorem countP_emitSeg (c : FmtCommand) (p : String)
    (h1 : strHasPfx p "--emit=" = false) (h2 : strHasPfx "--emit=" p = false) :
    List.countP (fun a => strHasPfx p a) (emitSeg c) = 0 := by
  simp [emitSeg, strHasPfx_append p "--emit=" h1 h2 _]

theorem countP_configPathSeg (c : FmtCommand) (p : String)
    (h1 : strHasPfx p "--config-path=" = false)
    (h2 : strHasPfx "--config-path=" p = false) :
    List.countP (fun a => strHasPfx p a) (configPathSeg c) = 0 := by
  cases hc : c.config_path with
  | none => simp [configPathSeg, hc]
  | some q => simp [configPathSeg, hc, strHasPfx_append p "--config-path=" h1 h2 q]

theorem countP_verbositySeg (c : FmtCommand) (p : String)
    (h1 : strHasPfx p "-v" = false) (h2 : strHasPfx p "-q" = false) :
    List.countP (fun a => strHasPfx p a) (verbositySeg c) = 0 := by
  cases hv : c.verbose <;> cases hq : c.quiet <;> simp [verbositySeg, hv, hq, h1, h2]

theorem countP_configSeg (c : FmtCommand) (p : String)
    (h1 : strHasPfx p "--config=" = false) (h2 : strHasPfx "--config=" p = false) :
    List.countP (fun a => strHasPfx p a) (configSeg c) = 0 := by
  by_cases hcm : c.config.isEmpty <;>
    simp [configSeg, hcm, strHasPfx_append p "--config=" h1 h2 _]

theorem no_dir_arg_of_file (c : FmtCommand) (f : String) (hf : c.file_path = some f) :
    List.countP (fun a => strHasPfx "--dir-path=" a) (buildArguments c) = 0 := by
  rw [countP_buildArguments]
  have ht : List.countP (fun a => strHasPfx "--dir-path=" a) [targetArg c] = 0 := by
    simp [targetArg, hf, strHasPfx_append "--dir-path=" "--file-path=" rfl rfl f]
  rw [countP_emitSeg c "--dir-path=" rfl rfl, countP_configPathSeg c "--dir-path=" rfl rfl,
    countP_verbositySeg c "--dir-path=" rfl rfl, countP_configSeg c "--dir-path=" rfl rfl, ht]

theorem no_file_arg_of_no_file (c : FmtCommand) (hf : c.file_path = none) :
    List.countP (fun a => strHasPfx "--file-path=" a) (buildArguments c) = 0 := by
  rw [countP_buildArguments]
  have ht : List.countP (fun a => strHasPfx "--file-path=" a) [targetArg c] = 0 := by
    simp [targetArg, hf, strHasPfx_append "--file-path=" "--dir-path=" rfl rfl _]
  rw [countP_emitSeg c "--file-path=" rfl rfl, countP_configPathSeg c "--file-path=" rfl rfl,
    countP_verbositySeg c "--file-path=" rfl rfl, countP_configSeg c "--file-path=" rfl rfl, ht]

/-- C4: a request with the file path set emits no dir-path argument; a
request with the dir path set that passes the CLI argument-group check
emits no file-path argument; and a request setting both target fields is
rejected by the argument-group check, so the child process is never invoked
with both target arguments. -/
theorem fmt_C4 (c : FmtCommand) :
    (c.file_path.isSome = true →
      List.countP (fun a => strHasPfx "--dir-path=" a) (buildArguments c) = 0)
    ∧ (inputGroupAccepts c = true → c.dir_path.isSome = true →
      List.countP (fun a => strHasPfx "--file-path=" a) (buildArguments c) = 0)
    ∧ (c.file_path.isSome = true → c.dir_path.isSome = true →
      inputGroupAccepts c = false) := by
  refine ⟨?_, ?_, ?_⟩
  · intro h
    rcases hf : c.file_path with _ | f
    · rw [hf] at h; simp at h
    · exact no_dir_arg_of_file c f hf
  · intro hacc hd
    have hf : c.file_path = none := by
      rcases hff : c.file_path with _ | f
      · rfl
      · exfalso
        rw [inputGroupAccepts, hff, hd] at hacc
        simp at hacc
    exact no_file_arg_of_no_file c hf
  · intro hf hd
    simp [inputGroupAccepts, hf, hd]

theorem fmt_C4_witness :
    List.countP (fun a => strHasPfx "--dir-path=" a)
      (buildArguments ⟨EmitMode.Overwrite, some "a.move", none, none, [], false, false⟩) = 0
    ∧ List.countP (fun a => strHasPfx "--file-path=" a)
      (buildArguments ⟨EmitMode.Overwrite, none, some "src", none, [], false, false⟩) = 0
    ∧ inputGroupAccepts
      ⟨EmitMode.Overwrite, some "a.move", some "src", none, [], false, false⟩ = false :=
  ⟨(fmt_C4 ⟨EmitMode.Overwrite, some "a.move", none, none, [], false, false⟩).1 rfl,
   (fmt_C4 ⟨EmitMode.Overwrite, none, some "src", none, [], false, false⟩).2.1 rfl rfl,
   (fmt_C4 ⟨EmitMode.Overwrite, some "a.move", some "src", none, [], false, false⟩).2.2 rfl rfl⟩

/-- C6: when both target fields are unset, the target argument is exactly
the current-directory default, and it is the argument the child receives
last. -/
theorem fmt_C6 (c : FmtCommand) (hf : c.file_path = none) (hd : c.dir_path = none) :
    targetArg c = "--dir-path=./"
    ∧ (buildArguments c).getLast? = some "--dir-path=./" := by
  have ht : targetArg c = "--dir-path=./" := by simp [targetArg, hf, hd]
  refine ⟨ht, ?_⟩
  have hsplit : buildArguments c
      = (emitSeg c ++ configPathSeg c ++ verbositySeg c ++ configSeg c) ++ [targetArg c] := by
    simp [buildArguments, List.append_assoc]
  rw [hsplit, List.getLast?_concat, ht]

theorem fmt_C6_witness :
    targetArg ⟨EmitMode.Overwrite, none, none, none, [], false, false⟩ = "--dir-path=./"
    ∧ (buildArguments ⟨EmitMode.Overwrite, none, none, none, [], false, false⟩).getLast?
      = some "--dir-path=./" :=
  fmt_C6 ⟨EmitMode.Overwrite, none, none, none, [], false, false⟩ rfl rfl

/-- C10: on a request value with both target fields set (one that bypassed
the CLI argument-group check), execute performs no rejection of its own: the
target argument is the file path, no dir-path argument is emitted, and both
the argument vector and the whole execution are identical to those of the
same request with the dir path removed. -/
theorem fmt_C10 (env : Env) (c : FmtCommand) (f d : String)
    (hf : c.file_path = some f) (hd : c.dir_path = some d) :
    targetArg c = "--file-path=" ++ f
    ∧ List.countP (fun a => strHasPfx "--dir-path=" a) (buildArguments c) = 0
    ∧ buildArguments c = buildArguments { c with dir_path := none }
    ∧ execute env c = execute env { c with dir_path := none } := by
  have ht : targetArg c = "--file-path=" ++ f := by simp [targetArg, hf]
  have hb : buildArguments c = buildArguments { c with dir_path := none } := by
    simp [buildArguments, emitSeg, configPathSeg, verbositySeg, configSeg, targetArg, hf]
  refine ⟨ht, no_dir_arg_of_file c f hf, hb, ?_⟩
  simp only [execute, hb]

theorem fmt_C10_witness :
    targetArg ⟨EmitMode.Overwrite, some "a.move", some "src", none, [], false, false⟩
      = "--file-path=a.move"
    ∧ List.countP (fun a => strHasPfx "--dir-path=" a)
      (buildArguments ⟨EmitMode.Overwrite, some "a.move", some "src", none, [], false, false⟩) = 0
    ∧ buildArguments ⟨EmitMode.Overwrite, some "a.move", some "src", none, [], false, false⟩
      = buildArguments ⟨EmitMode.Overwrite, some "a.move", none, none, [], false, false⟩
    ∧ execute ⟨.ok "movefmt", fun _ _ => .spawned ⟨0, [], []⟩⟩
        ⟨EmitMode.Overwrite, some "a.move", some "src", none, [], false, false⟩
      = execute ⟨.ok "movefmt", fun _ _ => .spawned ⟨0, [], []⟩⟩
        ⟨EmitMode.Overwrite, some "a.move", none, none, [], false, false⟩ :=
  fmt_C10 ⟨.ok "movefmt", fun _ _ => .spawned ⟨0, [], []⟩⟩
    ⟨EmitMode.Overwrite, some "a.move", some "src", none, [], false, false⟩
    "a.move" "src" rfl rfl

theorem not_mem_emitSeg (c : FmtCommand) (t : String)
    (h : strHasPfx "--emit=" t = false) : t ∉ emitSeg c := by
  intro hm
  simp only [emitSeg, List.mem_singleton] at hm
  exact append_ne_of_not_pfx "--emit=" t h _ hm.symm

theorem not_mem_configPathSeg (c : FmtCommand) (t : String)
    (h : strHasPfx "--config-path=" t = false) : t ∉ configPathSeg c := by
  intro hm
  cases hc : c.config_path with
  | none => simp [configPathSeg, hc] at hm
  | some p =>
    simp only [configPathSeg, hc, List.mem_singleton] at hm
    exact append_ne_of_not_pfx "--config-path=" t h p hm.symm

theorem not_mem_configSeg (c : FmtCommand) (t : String)
    (h : strHasPfx "--config=" t = false) : t ∉ configSeg c := by
  intro hm
  by_cases hcm : c.config.isEmpty
  · simp [configSeg, hcm] at hm
  · simp only [configSeg, if_neg hcm, List.mem_singleton] at hm
    exact append_ne_of_not_pfx "--config=" t h _ hm.symm

theorem ne_targetArg (c : FmtCommand) (t : String)
    (h1 : strHasPfx "--file-path=" t = false)
    (h2 : strHasPfx "--dir-path=" t = false) : t ≠ targetArg c := by
  cases hf : c.file_path with
  | some f =>
    simp only [targetArg, hf]
    exact fun he => append_ne_of_not_pfx "--file-path=" t h1 f he.symm
  | none =>
    simp only [targetArg, hf]
    exact fun he => append_ne_of_not_pfx "--dir-path=" t h2 _ he.symm

theorem mem_buildArguments_iff_verbosity (c : FmtCommand) (t : String)
    (h1 : strHasPfx "--emit=" t = false) (h2 : strHasPfx "--config-path=" t = false)
    (h3 : strHasPfx "--config=" t = false) (h4 : strHasPfx "--file-path=" t = false)
    (h5 : strHasPfx "--dir-path=" t = false) :
    t ∈ buildArguments c ↔ t ∈ verbositySeg c := by
  simp only [buildArguments, List.mem_append, List.mem_singleton]
  constructor
  · rintro ((((h | h) | h) | h) | h)
    · exact absurd h (not_mem_emitSeg c t h1)
    · exact absurd h (not_mem_configPathSeg c t h2)
    · exact h
    · exact absurd h (not_mem_configSeg c t h3)
    · exact absurd h (ne_targetArg c t h4 h5)
  · intro h
    exact Or.inl (Or.inl (Or.inr h))

/-- C7: the verbose flag wins over the quiet flag: with verbose set, -v is
emitted and -q never is, even when quiet is simultaneously set; with only
quiet set, -q is emitted and -v is not; with neither set, no verbosity
argument is emitted. -/
theorem fmt_C7 (c : FmtCommand) :
    (c.verbose = true → "-v" ∈ buildArguments c ∧ "-q" ∉ buildArguments c)
    ∧ (c.verbose = false → c.quiet = true →
        "-q" ∈ buildArguments c ∧ "-v" ∉ buildArguments c)
    ∧ (c.verbose = false → c.quiet = false →
        "-v" ∉ buildArguments c ∧ "-q" ∉ buildArguments c) := by
  have hvIff := mem_buildArguments_iff_verbosity c "-v" rfl rfl rfl rfl rfl
  have hqIff := mem_buildArguments_iff_verbosity c "-q" rfl rfl rfl rfl rfl
  have hvq : ("-v" : String) ≠ "-q" := by decide
  have hqv : ("-q" : String) ≠ "-v" := by decide
  refine ⟨?_, ?_, ?_⟩
  · intro hv
    refine ⟨hvIff.mpr (by simp [verbositySeg, hv]), ?_⟩
    simp [hqIff, verbositySeg, hv, hqv]
  · intro hv hq
    refine ⟨hqIff.mpr (by simp [verbositySeg, hv, hq]), ?_⟩
    simp [hvIff, verbositySeg, hv, hq, hvq]
  · intro hv hq
    constructor
    · simp [hvIff, verbositySeg, hv, hq]
    · simp [hqIff, verbositySeg, hv, hq]

theorem fmt_C7_witness :
    ("-v" ∈ buildArguments ⟨EmitMode.Overwrite, none, none, none, [], true, true⟩
      ∧ "-q" ∉ buildArguments ⟨EmitMode.Overwrite, none, none, none, [], true, true⟩)
    ∧ ("-q" ∈ buildArguments ⟨EmitMode.Overwrite, none, none, none, [], false, true⟩
      ∧ "-v" ∉ buildArguments ⟨EmitMode.Overwrite, none, none, none, [], false, true⟩)
    ∧ ("-v" ∉ buildArguments ⟨EmitMode.Overwrite, none, none, none, [], false, false⟩
      ∧ "-q" ∉ buildArguments ⟨EmitMode.Overwrite, none, none, none, [], false, false⟩) :=
  ⟨(fmt_C7 ⟨EmitMode.Overwrite, none, none, none, [], true, true⟩).1 rfl,
   (fmt_C7 ⟨EmitMode.Overwrite, none, none, none, [], false, true⟩).2.1 rfl rfl,
   (fmt_C7 ⟨EmitMode.Overwrite, none, none, none, [], false, false⟩).2.2 rfl rfl⟩

theorem config_eq_of_perm_of_sorted {m1 m2 : List (String × String)}
    (hp : m1.Perm m2) (h1 : sortedKeys m1) (h2 : sortedKeys m2) : m1 = m2 :=
  @List.eq_of_perm_of_sorted (String × String) (fun p q => strLtb p.1 q.1 = true)
    ⟨fun _ _ ha hb => (strLtb_asymm ha hb).elim⟩ m1 m2 hp h1 h2

/-- C5: with a non-empty overrides map exactly one config argument is
emitted and it is the comma-joined key=value rendering of the map in its
iteration order; with an empty map no config argument is emitted; and the
argument vector is determined by the contents of the map alone: two
requests whose maps hold the same entries (both in the ascending key order
a BTreeMap maintains, regardless of insertion order) and agree on the other
fields build identical argument vectors. -/
theorem fmt_C5 :
    (∀ c : FmtCommand, c.config ≠ [] →
      List.countP (fun a => strHasPfx "--config=" a) (buildArguments c) = 1
      ∧ ("--config=" ++ configJoined c.config) ∈ buildArguments c)
    ∧ (∀ c : FmtCommand, c.config = [] →
      List.countP (fun a => strHasPfx "--config=" a) (buildArguments c) = 0)
    ∧ (∀ c1 c2 : FmtCommand, sortedKeys c1.config → sortedKeys c2.config →
      c1.config.Perm c2.config → c1.emit_mode = c2.emit_mode →
      c1.file_path = c2.file_path → c1.dir_path = c2.dir_path →
      c1.config_path = c2.config_path → c1.verbose = c2.verbose →
      c1.quiet = c2.quiet → buildArguments c1 = buildArguments c2) := by
  refine ⟨?_, ?_, ?_⟩
  · intro c hne
    have hcm : c.config.isEmpty = false := by
      rcases hc : c.config with _ | ⟨kv, rest⟩
      · exact absurd hc hne
      · simp [hc]
    constructor
    · rw [countP_buildArguments, countP_emitSeg c "--config=" rfl rfl,
        countP_configPathSeg c "--config=" rfl rfl, countP_verbositySeg c "--config=" rfl rfl]
      have hcs : List.countP (fun a => strHasPfx "--config=" a) (configSeg c) = 1 := by
        simp [configSeg, hcm, strHasPfx_append_self]
      have ht : List.countP (fun a => strHasPfx "--config=" a) [targetArg c] = 0 := by
        cases hf : c.file_path <;>
          simp [targetArg, hf, strHasPfx_append "--config=" "--file-path=" rfl rfl _,
            strHasPfx_append "--config=" "--dir-path=" rfl rfl _]
      rw [hcs, ht]
    · have hmem : ("--config=" ++ configJoined c.config) ∈ configSeg c := by
        simp [configSeg, hcm]
      simp only [buildArguments, List.mem_append]
      exact Or.inl (Or.inr hmem)
  · intro c hc
    have hcs : configSeg c = [] := by simp [configSeg, hc]
    rw [countP_buildArguments, countP_emitSeg c "--config=" rfl rfl,
      countP_configPathSeg c "--config=" rfl rfl, countP_verbositySeg c "--config=" rfl rfl,
      hcs]
    have ht : List.countP (fun a => strHasPfx "--config=" a) [targetArg c] = 0 := by
      cases hf : c.file_path <;>
        simp [targetArg, hf, strHasPfx_append "--config=" "--file-path=" rfl rfl _,
          strHasPfx_append "--config=" "--dir-path=" rfl rfl _]
    simp [ht]
  · intro c1 c2 hs1 hs2 hperm he hf hd hcp hv hq
    have hcfg : c1.config = c2.config := config_eq_of_perm_of_sorted hperm hs1 hs2
    have hcc : c1 = c2 := by
      cases c1
      cases c2
      simp_all
    rw [hcc]

theorem fmt_C5_witness :
    (List.countP (fun a => strHasPfx "--config=" a)
      (buildArguments
        ⟨EmitMode.Overwrite, none, none, none, [("max_width", "100")], false, false⟩) = 1
      ∧ ("--config=" ++ configJoined [("max_width", "100")])
        ∈ buildArguments
          ⟨EmitMode.Overwrite, none, none, none, [("max_width", "100")], false, false⟩)
    ∧ List.countP (fun a => strHasPfx "--config=" a)
      (buildArguments ⟨EmitMode.Overwrite, none, none, none, [], false, false⟩) = 0
    ∧ buildArguments ⟨EmitMode.Overwrite, none, none, none,
        [("indent", "4"), ("max_width", "100")], false, false⟩
      = buildArguments ⟨EmitMode.Overwrite, none, none, none,
        [("indent", "4"), ("max_width", "100")], false, false⟩ :=
  ⟨fmt_C5.1 ⟨EmitMode.Overwrite, none, none, none, [("max_width", "100")], false, false⟩
      (by simp),
   fmt_C5.2.1 ⟨EmitMode.Overwrite, none, none, none, [], false, false⟩ rfl,
   fmt_C5.2.2 ⟨EmitMode.Overwrite, none, none, none,
        [("indent", "4"), ("max_width", "100")], false, false⟩
      ⟨EmitMode.Overwrite, none, none, none,
        [("indent", "4"), ("max_width", "100")], false, false⟩
      (by unfold sortedKeys; decide) (by unfold sortedKeys; decide)
      (List.Perm.refl _) rfl rfl rfl rfl rfl rfl⟩

/-- C1: when the child process exits with status 0 and its stdout decodes
as valid UTF-8, execute returns the fixed sentinel string ok (not the
decoded stdout), and the decoded stdout text is what is written to the
diagnostic stream. -/
theorem fmt_C1 (env : Env) (c : FmtCommand) (exe : String) (out : ProcessOutput) (s : String)
    (hexe : env.movefmt = .ok exe)
    (hrun : env.run exe (buildArguments c) = .spawned out)
    (hst : out.status = 0)
    (hdec : utf8Decode out.stdout = .ok s) :
    (execute env c).result = .ok "ok" ∧ (execute env c).diag = s := by
  simp [execute, hexe, hrun, hst, hdec]

theorem fmt_C1_witness :
    (execute
      ⟨.ok "movefmt", fun _ _ => .spawned
        ⟨0, [114, 101, 102, 111, 114, 109, 97, 116, 116, 101, 100, 32, 50, 32,
          102, 105, 108, 101, 115], []⟩⟩
      ⟨EmitMode.Overwrite, none, none, none, [], false, false⟩).result = .ok "ok"
    ∧ (execute
      ⟨.ok "movefmt", fun _ _ => .spawned
        ⟨0, [114, 101, 102, 111, 114, 109, 97, 116, 116, 101, 100, 32, 50, 32,
          102, 105, 108, 101, 115], []⟩⟩
      ⟨EmitMode.Overwrite, none, none, none, [], false, false⟩).diag
      = "reformatted 2 files" :=
  fmt_C1
    ⟨.ok "movefmt", fun _ _ => .spawned
      ⟨0, [114, 101, 102, 111, 114, 109, 97, 116, 116, 101, 100, 32, 50, 32,
        102, 105, 108, 101, 115], []⟩⟩
    ⟨EmitMode.Overwrite, none, none, none, [], false, false⟩
    "movefmt"
    ⟨0, [114, 101, 102, 111, 114, 109, 97, 116, 116, 101, 100, 32, 50, 32,
      102, 105, 108, 101, 115], []⟩
    "reformatted 2 files" rfl rfl rfl rfl

/-- C3: when the child process exits with a non-zero status, execute fails
with a tool-execution error embedding the exit status and the decoded
stderr text; if stderr is not valid UTF-8 the empty string is substituted;
the failure is never classified as an output-decode failure. -/
theorem fmt_C3 (env : Env) (c : FmtCommand) (exe : String) (out : ProcessOutput)
    (hexe : env.movefmt = .ok exe)
    (hrun : env.run exe (buildArguments c) = .spawned out)
    (hst : out.status ≠ 0) :
    (execute env c).result
      = .error (.toolExecutionError out.status ((utf8Decode out.stderr).toOption.getD ""))
    ∧ (∀ i, utf8Decode out.stderr = .error i →
        (execute env c).result = .error (.toolExecutionError out.status ""))
    ∧ ∀ m, (execute env c).result ≠ .error (.outputDecodeError m) := by
  have h1 : (execute env c).result
      = .error (.toolExecutionError out.status ((utf8Decode out.stderr).toOption.getD "")) := by
    simp [execute, hexe, hrun, hst]
  refine ⟨h1, ?_, ?_⟩
  · intro i hi
    rw [h1]
    simp [hi, Except.toOption]
  · intro m
    rw [h1]
    intro he
    simp at he

theorem fmt_C3_witness :
    (execute
      ⟨.ok "movefmt", fun _ _ => .spawned
        ⟨1, [], [112, 97, 114, 115, 101, 32, 101, 114, 114, 111, 114, 32, 97, 116,
          32, 108, 105, 110, 101, 32, 52]⟩⟩
      ⟨EmitMode.Overwrite, none, none, none, [], false, false⟩).result
      = .error (.toolExecutionError 1 "parse error at line 4")
    ∧ (execute
      ⟨.ok "movefmt", fun _ _ => .spawned ⟨1, [], [255]⟩⟩
      ⟨EmitMode.Overwrite, none, none, none, [], false, false⟩).result
      = .error (.toolExecutionError 1 "") :=
  ⟨(fmt_C3
      ⟨.ok "movefmt", fun _ _ => .spawned
        ⟨1, [], [112, 97, 114, 115, 101, 32, 101, 114, 114, 111, 114, 32, 97, 116,
          32, 108, 105, 110, 101, 32, 52]⟩⟩
      ⟨EmitMode.Overwrite, none, none, none, [], false, false⟩
      "movefmt"
      ⟨1, [], [112, 97, 114, 115, 101, 32, 101, 114, 114, 111, 114, 32, 97, 116,
        32, 108, 105, 110, 101, 32, 52]⟩
      rfl rfl (by decide)).1,
   (fmt_C3
      ⟨.ok "movefmt", fun _ _ => .spawned ⟨1, [], [255]⟩⟩
      ⟨EmitMode.Overwrite, none, none, none, [], false, false⟩
      "movefmt" ⟨1, [], [255]⟩
      rfl rfl (by decide)).2.1 0 rfl⟩

/-- C8: when the child process exits with status 0 but its stdout is not
valid UTF-8, execute fails with an output-decode error embedding the decode
error message, and does not return success. -/
theorem fmt_C8 (env : Env) (c : FmtCommand) (exe : String) (out : ProcessOutput) (i : Nat)
    (hexe : env.movefmt = .ok exe)
    (hrun : env.run exe (buildArguments c) = .spawned out)
    (hst : out.status = 0)
    (hdec : utf8Decode out.stdout = .error i) :
    (execute env c).result
      = .error (.outputDecodeError
          ("output generated by formatter is not valid utf8: " ++ utf8ErrMsg i))
    ∧ ∀ s, (execute env c).result ≠ .ok s := by
  have h1 : (execute env c).result
      = .error (.outputDecodeError
          ("output generated by formatter is not valid utf8: " ++ utf8ErrMsg i)) := by
    simp [execute, hexe, hrun, hst, hdec]
  refine ⟨h1, fun s he => ?_⟩
  rw [h1] at he
  exact Except.noConfusion he

theorem fmt_C8_witness :
    (execute
      ⟨.ok "movefmt", fun _ _ => .spawned ⟨0, [255], []⟩⟩
      ⟨EmitMode.Overwrite, none, none, none, [], false, false⟩).result
      = .error (.outputDecodeError
          "output generated by formatter is not valid utf8: invalid utf-8 sequence from index 0")
    ∧ (execute
      ⟨.ok "movefmt", fun _ _ => .spawned ⟨0, [255], []⟩⟩
      ⟨EmitMode.Overwrite, none, none, none, [], false, false⟩).result ≠ .ok "ok" :=
  ⟨(fmt_C8
      ⟨.ok "movefmt", fun _ _ => .spawned ⟨0, [255], []⟩⟩
      ⟨EmitMode.Overwrite, none, none, none, [], false, false⟩
      "movefmt" ⟨0, [255], []⟩ 0 rfl rfl rfl rfl).1,
   (fmt_C8
      ⟨.ok "movefmt", fun _ _ => .spawned ⟨0, [255], []⟩⟩
      ⟨EmitMode.Overwrite, none, none, none, [], false, false⟩
      "movefmt" ⟨0, [255], []⟩ 0 rfl rfl rfl rfl).2 "ok"⟩

/-- C9: when the executable resolver fails with a tool-not-found error,
execute fails with that same error propagated unchanged and no child
process is spawned. -/
theorem fmt_C9 (env : Env) (c : FmtCommand) (m : String)
    (h : env.movefmt = .error (.toolNotFound m)) :
    (execute env c).result = .error (.toolNotFound m)
    ∧ (execute env c).spawned = [] := by
  simp [execute, h]

theorem fmt_C9_witness :
    (execute
      ⟨.error (.toolNotFound "movefmt not installed"), fun _ _ => .spawned ⟨0, [], []⟩⟩
      ⟨EmitMode.Overwrite, none, none, none, [], false, false⟩).result
      = .error (.toolNotFound "movefmt not installed")
    ∧ (execute
      ⟨.error (.toolNotFound "movefmt not installed"), fun _ _ => .spawned ⟨0, [], []⟩⟩
      ⟨EmitMode.Overwrite, none, none, none, [], false, false⟩).spawned = [] :=
  fmt_C9
    ⟨.error (.toolNotFound "movefmt not installed"), fun _ _ => .spawned ⟨0, [], []⟩⟩
    ⟨EmitMode.Overwrite, none, none, none, [], false, false⟩
    "movefmt not installed" rfl

end MoveFmt
